import Mathlib

set_option maxHeartbeats 1000000
set_option synthInstance.maxHeartbeats 200000
set_option linter.unusedVariables false

/-!
Verification of the GraphQL command-line client (graphql_client.py).

The client is embedded shallowly: JSON values are the inductive `Json`
(numbers are modelled as integers, which covers every value the program
manipulates structurally; the program performs no numeric computation),
HTTP traffic is an oracle passed to each operation, and each method of
the `GraphQLClient` class becomes a pure function returning its result,
the session state after the call, the requests it issued and the lines
it printed.  Python exceptions that the source catches or lets escape
are modelled explicitly.
-/

/-- JSON values, as produced by `response.json()` / `json.loads`.  Objects
keep insertion order, matching Python dicts parsed from JSON. -/
inductive Json where
  | null : Json
  | bool : Bool → Json
  | num : Int → Json
  | str : List Char → Json
  | arr : List Json → Json
  | obj : List (List Char × Json) → Json

/-- Python truthiness of a JSON value (`if x:`): None, False, 0, empty
string, empty list and empty dict are falsy. -/
def truthy : Json → Bool
  | Json.null => false
  | Json.bool b => b
  | Json.num n => n != 0
  | Json.str s => !s.isEmpty
  | Json.arr xs => !xs.isEmpty
  | Json.obj kvs => !kvs.isEmpty

/-- Truthiness of an optional value; Python `None` is falsy. -/
def truthyOpt : Option Json → Bool
  | none => false
  | some j => truthy j

/-- Dictionary lookup (`d.get(k)` / `d[k]` when present).  Python dicts
parsed from JSON have unique keys, so first-match lookup is exact. -/
def pyLookup : List (List Char × Json) → List Char → Option Json
  | [], _ => none
  | (k, v) :: rest, key => if k = key then some v else pyLookup rest key

/-- View a JSON value as a dict; `none` corresponds to the AttributeError
raised by `x.get(...)` on a non-dict. -/
def asObj : Json → Option (List (List Char × Json))
  | Json.obj kvs => some kvs
  | _ => none

/-! ## `json.dumps(result, indent=2, ensure_ascii=False)` -/

/-- Whitespace characters JSON allows between tokens. -/
def isWs (c : Char) : Bool :=
  c.toNat = 32 || c.toNat = 9 || c.toNat = 10 || c.toNat = 13

def isDigitCh (c : Char) : Bool :=
  48 ≤ c.toNat && c.toNat ≤ 57

def spaces : Nat → List Char
  | 0 => []
  | n + 1 => ' ' :: spaces n

/-- Newline followed by the indentation for depth `d` (two spaces per
level, from `indent=2`). -/
def nlIndent (d : Nat) : List Char := '\n' :: spaces (2 * d)

def digitCh : Nat → Char
  | 0 => '0'
  | 1 => '1'
  | 2 => '2'
  | 3 => '3'
  | 4 => '4'
  | 5 => '5'
  | 6 => '6'
  | 7 => '7'
  | 8 => '8'
  | 9 => '9'
  | _ => '0'

def hexDigitCh : Nat → Char
  | 0 => '0'
  | 1 => '1'
  | 2 => '2'
  | 3 => '3'
  | 4 => '4'
  | 5 => '5'
  | 6 => '6'
  | 7 => '7'
  | 8 => '8'
  | 9 => '9'
  | 10 => 'a'
  | 11 => 'b'
  | 12 => 'c'
  | 13 => 'd'
  | 14 => 'e'
  | 15 => 'f'
  | _ => '0'

/-- Decimal digits of `n`, most significant first, accumulator style. -/
def natCharsAux : Nat → List Char → List Char
  | 0, acc => acc
  | n + 1, acc => natCharsAux ((n + 1) / 10) (digitCh ((n + 1) % 10) :: acc)
termination_by n _ => n
decreasing_by
  exact Nat.div_lt_self (Nat.succ_pos n) (by norm_num)

def natChars (n : Nat) : List Char :=
  if n = 0 then ['0'] else natCharsAux n []

/-- Decimal rendering of an integer, as Python prints ints. -/
def intChars (n : Int) : List Char :=
  if n < 0 then '-' :: natChars n.natAbs else natChars n.toNat

/-- Escaping of one character inside a JSON string literal, as done by
`json.dumps` with `ensure_ascii=False`: only the quote, the backslash and
control characters below 0x20 are escaped; everything else (including
non-ASCII) is emitted literally. -/
def escChar (c : Char) : List Char :=
  if c = '\x22' then ['\x5c', '\x22']
  else if c = '\x5c' then ['\x5c', '\x5c']
  else if c = '\x08' then ['\x5c', 'b']
  else if c = '\x0c' then ['\x5c', 'f']
  else if c = '\n' then ['\x5c', 'n']
  else if c = '\r' then ['\x5c', 'r']
  else if c = '\t' then ['\x5c', 't']
  else if c.toNat < 32 then
    ['\x5c', 'u', '0', '0', hexDigitCh (c.toNat / 16), hexDigitCh (c.toNat % 16)]
  else [c]

def escString : List Char → List Char
  | [] => []
  | c :: rest => escChar c ++ escString rest

/-- A JSON string literal: quote, escaped body, quote. -/
def strEmit (s : List Char) : List Char :=
  '\x22' :: (escString s ++ ['\x22'])

mutual

/-- `json.dumps(j, indent=2, ensure_ascii=False)` at nesting depth `d`:
empty containers print inline, non-empty containers put every element on
its own indented line, with separators `,` and `: `. -/
def emit : Nat → Json → List Char
  | _, Json.null => ['n', 'u', 'l', 'l']
  | _, Json.bool true => ['t', 'r', 'u', 'e']
  | _, Json.bool false => ['f', 'a', 'l', 's', 'e']
  | _, Json.num n => intChars n
  | _, Json.str s => strEmit s
  | _, Json.arr [] => ['[', ']']
  | d, Json.arr (x :: xs) =>
      '[' :: (nlIndent (d + 1) ++ emitItems (d + 1) x xs ++ nlIndent d ++ [']'])
  | _, Json.obj [] => ['\x7b', '\x7d']
  | d, Json.obj (kv :: kvs) =>
      '\x7b' :: (nlIndent (d + 1) ++ emitMembers (d + 1) kv kvs ++ nlIndent d ++ ['\x7d'])
termination_by d j => sizeOf j

def emitItems : Nat → Json → List Json → List Char
  | d, x, [] => emit d x
  | d, x, y :: ys => emit d x ++ ',' :: (nlIndent d ++ emitItems d y ys)
termination_by d x xs => sizeOf x + sizeOf xs

def emitMembers : Nat → (List Char × Json) → List (List Char × Json) → List Char
  | d, (k, v), [] => strEmit k ++ ':' :: ' ' :: emit d v
  | d, (k, v), m :: ms =>
      strEmit k ++ ':' :: ' ' :: emit d v ++ ',' :: (nlIndent d ++ emitMembers d m ms)
termination_by d kv ms => sizeOf kv + sizeOf ms

end

/-- The exact text printed by `json.dumps(result, indent=2, ensure_ascii=False)`. -/
def dumps (j : Json) : List Char := emit 0 j

/-! ## A JSON parser, modelling `json.loads` (restricted to integral
numerics, which is all this development feeds it). -/

def skipWs : List Char → List Char
  | [] => []
  | c :: s => if isWs c then skipWs s else c :: s

def digitVal (c : Char) : Nat := c.toNat - 48

def hexVal (c : Char) : Nat :=
  if 48 ≤ c.toNat && c.toNat ≤ 57 then c.toNat - 48
  else if 97 ≤ c.toNat && c.toNat ≤ 102 then c.toNat - 87
  else if 65 ≤ c.toNat && c.toNat ≤ 70 then c.toNat - 55
  else 0

def isHexCh (c : Char) : Bool :=
  (48 ≤ c.toNat && c.toNat ≤ 57) || (97 ≤ c.toNat && c.toNat ≤ 102)
    || (65 ≤ c.toNat && c.toNat ≤ 70)

/-- Read a run of decimal digits. Fails when the input does not start
with a digit. -/
def readNat (s : List Char) : Option (Nat × List Char) :=
  let ds := s.takeWhile isDigitCh
  if ds.isEmpty then none
  else some (ds.foldl (fun a c => 10 * a + digitVal c) 0, s.dropWhile isDigitCh)

/-- Body of a JSON string literal after the opening quote, undoing the
standard escapes. -/
def parseStringBody : List Char → Option (List Char × List Char)
  | [] => none
  | c :: s =>
    if c = '\x22' then some ([], s)
    else if c = '\x5c' then
      match s with
      | [] => none
      | e :: s1 =>
        if e = '\x22' then (parseStringBody s1).map (fun p => ('\x22' :: p.1, p.2))
        else if e = '\x5c' then (parseStringBody s1).map (fun p => ('\x5c' :: p.1, p.2))
        else if e = '/' then (parseStringBody s1).map (fun p => ('/' :: p.1, p.2))
        else if e = 'b' then (parseStringBody s1).map (fun p => ('\x08' :: p.1, p.2))
        else if e = 'f' then (parseStringBody s1).map (fun p => ('\x0c' :: p.1, p.2))
        else if e = 'n' then (parseStringBody s1).map (fun p => ('\n' :: p.1, p.2))
        else if e = 'r' then (parseStringBody s1).map (fun p => ('\r' :: p.1, p.2))
        else if e = 't' then (parseStringBody s1).map (fun p => ('\t' :: p.1, p.2))
        else if e = 'u' then
          match s1 with
          | h1 :: h2 :: h3 :: h4 :: s2 =>
            if isHexCh h1 && isHexCh h2 && isHexCh h3 && isHexCh h4 then
              (parseStringBody s2).map (fun p =>
                (Char.ofNat (hexVal h1 * 4096 + hexVal h2 * 256 + hexVal h3 * 16 + hexVal h4)
                  :: p.1, p.2))
            else none
          | _ => none
        else none
    else (parseStringBody s).map (fun p => (c :: p.1, p.2))

mutual

/-- Parse one JSON value; `fuel` bounds the nesting the parser will
descend into (callers pass the input length, an upper bound). -/
def parseValue : Nat → List Char → Option (Json × List Char)
  | 0, _ => none
  | f + 1, s =>
    match skipWs s with
    | [] => none
    | c :: s1 =>
      if c = '\x7b' then
        match skipWs s1 with
        | [] => none
        | c2 :: s2 =>
          if c2 = '\x7d' then some (Json.obj [], s2)
          else (parseMembers f (c2 :: s2)).map (fun p => (Json.obj p.1, p.2))
      else if c = '[' then
        match skipWs s1 with
        | [] => none
        | c2 :: s2 =>
          if c2 = ']' then some (Json.arr [], s2)
          else (parseItems f (c2 :: s2)).map (fun p => (Json.arr p.1, p.2))
      else if c = '\x22' then
        (parseStringBody s1).map (fun p => (Json.str p.1, p.2))
      else if c = 'n' then
        match s1 with
        | 'u' :: 'l' :: 'l' :: s2 => some (Json.null, s2)
        | _ => none
      else if c = 't' then
        match s1 with
        | 'r' :: 'u' :: 'e' :: s2 => some (Json.bool true, s2)
        | _ => none
      else if c = 'f' then
        match s1 with
        | 'a' :: 'l' :: 's' :: 'e' :: s2 => some (Json.bool false, s2)
        | _ => none
      else if c = '-' then
        (readNat s1).map (fun p => (Json.num (-(p.1 : Int)), p.2))
      else
        (readNat (c :: s1)).map (fun p => (Json.num (p.1 : Int), p.2))

def parseMembers : Nat → List Char → Option (List (List Char × Json) × List Char)
  | 0, _ => none
  | f + 1, s =>
    match skipWs s with
    | [] => none
    | c :: s1 =>
      if c = '\x22' then
        match parseStringBody s1 with
        | none => none
        | some (k, s2) =>
          match skipWs s2 with
          | [] => none
          | c2 :: s3 =>
            if c2 = ':' then
              match parseValue f s3 with
              | none => none
              | some (v, s4) =>
                match skipWs s4 with
                | [] => none
                | c3 :: s5 =>
                  if c3 = ',' then
                    (parseMembers f s5).map (fun p => ((k, v) :: p.1, p.2))
                  else if c3 = '\x7d' then some ([(k, v)], s5)
                  else none
            else none
      else none

def parseItems : Nat → List Char → Option (List Json × List Char)
  | 0, _ => none
  | f + 1, s =>
    match parseValue f s with
    | none => none
    | some (v, s1) =>
      match skipWs s1 with
      | [] => none
      | c :: s2 =>
        if c = ',' then (parseItems f s2).map (fun p => (v :: p.1, p.2))
        else if c = ']' then some ([v], s2)
        else none

end

/-- Full-input JSON parse, modelling `json.loads`: one value, then only
trailing whitespace. -/
def reparse (s : List Char) : Option Json :=
  match parseValue (s.length + 1) s with
  | some (j, rest) => if (skipWs rest).isEmpty then some j else none
  | none => none

/-! ## The client model

`GraphQLClient` state, the HTTP transport as an oracle, and the three
methods `login`, `execute_query`, `print_result` plus the `main` entry
point, translated from graphql_client.py.  Printed lines are recorded as
structured `OutEvent`s carrying the dynamic values that the source
interpolates into each message. -/

/-- The mutable state of one `GraphQLClient` instance (`__init__`):
`self.base_url`, `self.token = None`, `self.verbose`.  The token is
whatever JSON value `login` stored (`self.token = result['token']`). -/
structure Session where
  base_url : List Char
  token : Option Json
  verbose : Bool

/-- One printed line.  Constructors carry the server-supplied values the
source interpolates; fixed text (the Chinese diagnostics) is implicit in
the constructor. -/
inductive OutEvent where
  | noTokenError : OutEvent
  | verboseQueryInfo : OutEvent
  | queryErrorsHeader : OutEvent
  | queryErrorMsg : Option Json → OutEvent
  | authFailed : OutEvent
  | httpError : Nat → OutEvent
  | responseSnippet : List Char → OutEvent
  | requestException : OutEvent
  | loginException : OutEvent
  | loginFailed : Option Json → OutEvent
  | loginHttpFailed : Nat → OutEvent
  | loginErrorInfo : Option Json → OutEvent
  | resultHeader : OutEvent
  | jsonDump : List Char → OutEvent
  | rawDump : Json → OutEvent
  | meSummary : Option Json → Option Json → Option Json → OutEvent
  | productsCount : Json → OutEvent
  | productsHeader : OutEvent
  | productLine : Nat → Json → Json → Json → Json → OutEvent

/-- An HTTP response: status code, `response.json()` (none when the body
is not valid JSON, in which case `.json()` raises) and the raw text. -/
structure HttpResponse where
  status : Nat
  body : Option Json
  text : List Char

/-- Outcome of `self.session.post(...)`: a response, or a transport-level
exception. -/
inductive TransportResult where
  | ok : HttpResponse → TransportResult
  | exn : TransportResult

/-- The POST request `execute_query` builds: target, JSON payload, and
the two headers.  `bearerToken` is the value interpolated into
`f'Bearer {self.token}'`. -/
structure QueryRequest where
  base_url : List Char
  endpoint : List Char
  payload : Json
  contentType : List Char
  bearerToken : Json

def kQuery : List Char := "query".data
def kVariables : List Char := "variables".data
def kErrors : List Char := "errors".data
def kMessage : List Char := "message".data
def kSuccess : List Char := "success".data
def kToken : List Char := "token".data
def kError : List Char := "error".data
def kUser : List Char := "user".data
def kEmail : List Char := "email".data
def kRole : List Char := "role".data
def kData : List Char := "data".data
def kMe : List Char := "me".data
def kUserId : List Char := "userId".data
def kProducts : List Char := "products".data
def kTotalCount : List Char := "totalCount".data
def kItems : List Char := "items".data
def kTitle : List Char := "title".data
def kVendor : List Char := "vendor".data
def kMinPrice : List Char := "minPrice".data
def kMaxPrice : List Char := "maxPrice".data

/-- The payload of `execute_query`: `{"query": query}` plus a
`variables` key exactly when `if variables:` is truthy. -/
def mkQueryRequest (st : Session) (query : List Char) (vars : Option Json)
    (endpoint : List Char) (tok : Json) : QueryRequest :=
  { base_url := st.base_url
    endpoint := endpoint
    payload := Json.obj ((kQuery, Json.str query) ::
      (match vars with
       | some v => if truthy v then [(kVariables, v)] else []
       | none => []))
    contentType := "application/json".data
    bearerToken := tok }

/-- Values on which the slice `self.token[:10]` in the verbose log works
(Python slicing is defined for strings and lists; on other values the
f-string raises TypeError before any request is made). -/
def sliceable : Json → Bool
  | Json.str _ => true
  | Json.arr _ => true
  | _ => false

/-- The loop `for error in result['errors']: print(error.get('message'))`
over a JSON list: one message line per dict element; a non-dict element
raises AttributeError after the earlier lines were printed (second
component false). -/
def errorLoop : List Json → List OutEvent × Bool
  | [] => ([], true)
  | e :: rest =>
    match asObj e with
    | none => ([], false)
    | some ekvs =>
      let p := errorLoop rest
      (OutEvent.queryErrorMsg (pyLookup ekvs kMessage) :: p.1, p.2)

/-- Iterating a truthy `errors` value: a list loops per element; any
other truthy value raises before printing a message (iterating a string
or dict yields strings, which have no `.get`; numbers and booleans are
not iterable). -/
def errorsReport : Json → List OutEvent × Bool
  | Json.arr items => errorLoop items
  | _ => ([], false)

/-- The inner `try` of the 401 / other-status branches: parse the body,
print each `errors[i].message`; on any failure print the first 200
characters of the raw body instead. -/
def reportErrors (r : HttpResponse) : List OutEvent :=
  match r.body with
  | none => [OutEvent.responseSnippet (r.text.take 200)]
  | some j =>
    match asObj j with
    | none => [OutEvent.responseSnippet (r.text.take 200)]
    | some kvs =>
      let eo := pyLookup kvs kErrors
      if truthyOpt eo then
        let p := errorsReport (eo.getD Json.null)
        if p.2 then p.1 else p.1 ++ [OutEvent.responseSnippet (r.text.take 200)]
      else []

/-- Result of one `execute_query` call: the returned value (`none` is the
Python `None` sentinel), whether an exception escaped the method
(only the verbose `self.token[:10]` TypeError can), the requests that
reached the transport, the printed lines, and the token afterwards. -/
structure ExecResult where
  retVal : Option Json
  raised : Bool
  sent : List QueryRequest
  output : List OutEvent
  finalToken : Option Json

/-- `GraphQLClient.execute_query(query, variables, endpoint)` against a
transport oracle `net`. -/
def execute_query (st : Session) (query : List Char) (vars : Option Json)
    (endpoint : List Char) (net : QueryRequest → TransportResult) : ExecResult :=
  match st.token with
  | none =>
    { retVal := none, raised := false, sent := [],
      output := [OutEvent.noTokenError], finalToken := st.token }
  | some tok =>
    if !truthy tok then
      { retVal := none, raised := false, sent := [],
        output := [OutEvent.noTokenError], finalToken := st.token }
    else
      let req := mkQueryRequest st query vars endpoint tok
      if st.verbose && !sliceable tok then
        { retVal := none, raised := true, sent := [], output := [],
          finalToken := st.token }
      else
        let vOut := if st.verbose then [OutEvent.verboseQueryInfo] else []
        match net req with
        | TransportResult.exn =>
          { retVal := none, raised := false, sent := [req],
            output := vOut ++ [OutEvent.requestException], finalToken := st.token }
        | TransportResult.ok r =>
          if r.status = 200 then
            match r.body with
            | none =>
              { retVal := none, raised := false, sent := [req],
                output := vOut ++ [OutEvent.requestException], finalToken := st.token }
            | some j =>
              match asObj j with
              | none =>
                { retVal := none, raised := false, sent := [req],
                  output := vOut ++ [OutEvent.requestException], finalToken := st.token }
              | some kvs =>
                let eo := pyLookup kvs kErrors
                if truthyOpt eo then
                  let p := errorsReport (eo.getD Json.null)
                  if p.2 then
                    { retVal := some j, raised := false, sent := [req],
                      output := vOut ++ OutEvent.queryErrorsHeader :: p.1,
                      finalToken := st.token }
                  else
                    { retVal := none, raised := false, sent := [req],
                      output := vOut ++ OutEvent.queryErrorsHeader :: p.1
                        ++ [OutEvent.requestException],
                      finalToken := st.token }
                else
                  { retVal := some j, raised := false, sent := [req],
                    output := vOut, finalToken := st.token }
          else if r.status = 401 then
            { retVal := none, raised := false, sent := [req],
              output := vOut ++ OutEvent.authFailed :: reportErrors r,
              finalToken := st.token }
          else
            { retVal := none, raised := false, sent := [req],
              output := vOut ++ OutEvent.httpError r.status :: reportErrors r,
              finalToken := st.token }

/-- Result of one `login` call. -/
structure LoginResult where
  ok : Bool
  session : Session
  output : List OutEvent

/-- Whether the verbose success log of `login` completes: it evaluates
`result['user']['email']` and `result['user']['role']` when `user` is
truthy, raising on a non-dict `user` or a missing key. -/
def verboseLoginOk (kvs : List (List Char × Json)) : Bool :=
  let uo := pyLookup kvs kUser
  if truthyOpt uo then
    match uo with
    | some u =>
      match asObj u with
      | none => false
      | some ukvs => (pyLookup ukvs kEmail).isSome && (pyLookup ukvs kRole).isSome
    | none => true
  else true

/-- The non-200 reporting of `login`: the `error` field of a parsed dict
body, otherwise the first 200 characters of the raw body. -/
def loginReportError (r : HttpResponse) : List OutEvent :=
  match r.body with
  | none => [OutEvent.responseSnippet (r.text.take 200)]
  | some j =>
    match asObj j with
    | none => [OutEvent.responseSnippet (r.text.take 200)]
    | some kvs => [OutEvent.loginErrorInfo (pyLookup kvs kError)]

/-- `GraphQLClient.login(email, password, endpoint)`.  On 200 with a dict
body it tests `result.get('success', False) and result.get('token')`
(Python truthiness) and stores `result['token']`; every exception inside
the method is caught and turned into a false return — including one
raised by the verbose success log after the token was already stored. -/
def login (st : Session) (email password : List Char) (resp : TransportResult) :
    LoginResult :=
  match resp with
  | TransportResult.exn => { ok := false, session := st, output := [OutEvent.loginException] }
  | TransportResult.ok r =>
    if r.status = 200 then
      match r.body with
      | none => { ok := false, session := st, output := [OutEvent.loginException] }
      | some j =>
        match asObj j with
        | none => { ok := false, session := st, output := [OutEvent.loginException] }
        | some kvs =>
          if truthy ((pyLookup kvs kSuccess).getD (Json.bool false))
              && truthyOpt (pyLookup kvs kToken) then
            let st2 := { st with token := pyLookup kvs kToken }
            if st.verbose && !verboseLoginOk kvs then
              { ok := false, session := st2, output := [OutEvent.loginException] }
            else
              { ok := true, session := st2, output := [] }
          else
            { ok := false, session := st,
              output := [OutEvent.loginFailed (pyLookup kvs kError)] }
    else
      { ok := false, session := st,
        output := OutEvent.loginHttpFailed r.status :: loginReportError r }

/-- Result of `print_result`: the printed lines and whether the method
returned normally (`ok = false` means an uncaught AttributeError /
TypeError escaped to the caller, after the recorded lines were printed). -/
structure PrintRes where
  output : List OutEvent
  ok : Bool

def defTitle : List Char := "未命名产品".data
def defVendor : List Char := "未知供应商".data

/-- The loop over `products['items']` with 1-based `enumerate`: one line
per dict element, with `.get` defaults for title, vendor and the two
prices; a non-dict element raises after the earlier lines. -/
def productLines : Nat → List Json → List OutEvent × Bool
  | _, [] => ([], true)
  | i, item :: rest =>
    match asObj item with
    | none => ([], false)
    | some ikvs =>
      let line := OutEvent.productLine i
        ((pyLookup ikvs kTitle).getD (Json.str defTitle))
        ((pyLookup ikvs kVendor).getD (Json.str defVendor))
        ((pyLookup ikvs kMinPrice).getD (Json.num 0))
        ((pyLookup ikvs kMaxPrice).getD (Json.num 0))
      let p := productLines (i + 1) rest
      (line :: p.1, p.2)

/-- The `me` summary branch of `print_result`. -/
def meEvents (dkvs : List (List Char × Json)) : List OutEvent × Bool :=
  let meo := pyLookup dkvs kMe
  if truthyOpt meo then
    match meo with
    | some me =>
      match asObj me with
      | none => ([], false)
      | some ukvs =>
        ([OutEvent.meSummary (pyLookup ukvs kEmail) (pyLookup ukvs kUserId)
            (pyLookup ukvs kRole)], true)
    | none => ([], true)
  else ([], true)

/-- The products summary branch of `print_result`. -/
def productsEvents (dkvs : List (List Char × Json)) : List OutEvent × Bool :=
  let po := pyLookup dkvs kProducts
  if truthyOpt po then
    match po with
    | some p =>
      match asObj p with
      | none => ([], false)
      | some pkvs =>
        let cnt := OutEvent.productsCount ((pyLookup pkvs kTotalCount).getD (Json.num 0))
        let io := pyLookup pkvs kItems
        if truthyOpt io then
          match io with
          | some (Json.arr its) =>
            let pl := productLines 1 its
            (cnt :: OutEvent.productsHeader :: pl.1, pl.2)
          | _ => ([cnt, OutEvent.productsHeader], false)
        else ([cnt], true)
    | none => ([], true)
  else ([], true)

/-- `GraphQLClient.print_result(result, format_output)`: returns
immediately on a falsy result, otherwise prints the full JSON dump (or
the raw repr), then the two independent shape summaries. -/
def print_result (result : Option Json) (format_output : Bool) : PrintRes :=
  match result with
  | none => { output := [], ok := true }
  | some j =>
    if !truthy j then { output := [], ok := true }
    else
      let base := if format_output
        then [OutEvent.resultHeader, OutEvent.jsonDump (dumps j)]
        else [OutEvent.rawDump j]
      match asObj j with
      | none => { output := base, ok := false }
      | some kvs =>
        match pyLookup kvs kData with
        | some dta =>
          if truthy dta then
            match asObj dta with
            | none => { output := base, ok := false }
            | some dkvs =>
              let m := meEvents dkvs
              if m.2 then
                let p := productsEvents dkvs
                { output := base ++ m.1 ++ p.1, ok := p.2 }
              else { output := base ++ m.1, ok := false }
          else { output := base, ok := true }
        | none => { output := base, ok := true }

/-! ## The command-line entry point -/

/-- Parsed command-line arguments (argparse). -/
structure CliArgs where
  url : List Char
  email : List Char
  password : List Char
  authEndpoint : List Char
  graphqlEndpoint : List Char
  query : Option (List Char)
  queryFile : Option (List Char)
  variablesArg : Option (List Char)
  verbose : Bool

/-- Outcome of `open(args.query_file).read()`. -/
inductive FileResult where
  | content : List Char → FileResult
  | err : FileResult

/-- Observable outcome of one run of `main`: the process exit code,
whether it ended in an uncaught exception (Python exits with code 1 and
a traceback), and which network calls were issued. -/
structure MainRes where
  exitCode : Nat
  crashed : Bool
  loginSent : Bool
  querySent : Bool

/-- The default query used when neither `--query` nor `--query-file`
supplies one. -/
def defaultQuery : List Char :=
  ("\n        \x7b\n          me \x7b\n            userId\n            email\n            role\n          \x7d\n        \x7d\n        ").data

/-- `main()`: resolve the query text, parse `--variables`, construct the
client, log in, run the query, print the result. -/
def main' (args : CliArgs) (readFile : List Char → FileResult)
    (loginResp : TransportResult) (queryNet : QueryRequest → TransportResult) : MainRes :=
  match (match args.queryFile with
         | some f =>
           (match readFile f with
            | FileResult.content s => some (some s)
            | FileResult.err => none)
         | none => some args.query) with
  | none => { exitCode := 1, crashed := false, loginSent := false, querySent := false }
  | some q1 =>
    let query := match q1 with
      | none => defaultQuery
      | some s => if s.isEmpty then defaultQuery else s
    match (match args.variablesArg with
           | none => some none
           | some vtext =>
             (match reparse vtext with
              | none => none
              | some v => some (some v))) with
    | none => { exitCode := 1, crashed := false, loginSent := false, querySent := false }
    | some vars =>
      let client : Session := { base_url := args.url, token := none, verbose := args.verbose }
      let lr := login client args.email args.password loginResp
      if !lr.ok then
        { exitCode := 1, crashed := false, loginSent := true, querySent := false }
      else
        let er := execute_query lr.session query vars args.graphqlEndpoint queryNet
        if er.raised then
          { exitCode := 1, crashed := true, loginSent := true,
            querySent := !er.sent.isEmpty }
        else
          match er.retVal with
          | some r =>
            if truthy r then
              let pr := print_result (some r) true
              if pr.ok then
                { exitCode := 0, crashed := false, loginSent := true, querySent := true }
              else
                { exitCode := 1, crashed := true, loginSent := true, querySent := true }
            else
              { exitCode := 0, crashed := false, loginSent := true,
                querySent := !er.sent.isEmpty }
          | none =>
            { exitCode := 0, crashed := false, loginSent := true,
              querySent := !er.sent.isEmpty }

/-! ## Auxiliary definitions used by the statements and proofs -/

mutual

/-- Fuel sufficient for `parseValue` to parse the emission of `j`. -/
def jfuel : Json → Nat
  | Json.null => 1
  | Json.bool _ => 1
  | Json.num _ => 1
  | Json.str _ => 1
  | Json.arr xs => 1 + ifuel xs
  | Json.obj kvs => 1 + mfuel kvs
termination_by j => sizeOf j

def ifuel : List Json → Nat
  | [] => 1
  | x :: xs => 1 + jfuel x + ifuel xs
termination_by xs => sizeOf xs

def mfuel : List (List Char × Json) → Nat
  | [] => 1
  | (k, v) :: ms => 1 + jfuel v + mfuel ms
termination_by ms => sizeOf ms

end

/-- Every character is JSON whitespace. -/
def allWs (w : List Char) : Prop := ∀ c ∈ w, isWs c = true

/-- The input does not begin with a decimal digit (so a digit run ends
exactly at its end). -/
def noDigitHead : List Char → Prop
  | [] => True
  | c :: _ => isDigitCh c = false

/-- The `message` field of one GraphQL error object (`error.get('message')`). -/
def errMsgField (e : Json) : Option Json :=
  match asObj e with
  | some kvs => pyLookup kvs kMessage
  | none => none

/-- Field lookup on a JSON object value (`item.get(k)` for dict items). -/
def fieldOf (item : Json) (k : List Char) : Option Json :=
  pyLookup ((asObj item).getD []) k

/-- `--query-file` was given and could not be read. -/
def fileFails (args : CliArgs) (readFile : List Char → FileResult) : Bool :=
  match args.queryFile with
  | some f =>
    (match readFile f with
     | FileResult.err => true
     | FileResult.content _ => false)
  | none => false

/-- `--variables` was given and is not valid JSON. -/
def varsFail (args : CliArgs) : Bool :=
  match args.variablesArg with
  | some vtext => (reparse vtext).isNone
  | none => false

/-- `login` (as called by `main` on a fresh client) returns false. -/
def loginFails (args : CliArgs) (loginResp : TransportResult) : Bool :=
  !(login { base_url := args.url, token := none, verbose := args.verbose }
      args.email args.password loginResp).ok

/-- Login response body used to refute claim C2: HTTP 200,
`success` equal to `true`, and a `token` key that is present but maps to
the empty string (falsy). -/
def c2Body : List (List Char × Json) :=
  [(kSuccess, Json.bool true), (kToken, Json.str [])]

def c2Resp : HttpResponse :=
  { status := 200, body := some (Json.obj c2Body), text := [] }

def c2Session : Session := { base_url := "http://h".data, token := none, verbose := false }

/-- Query response body used to refute claim C9: HTTP 200 with
`data` bound to the number 5, on which `print_result` raises
(`result['data'].get('me')` on a non-dict). -/
def c9Body : Json := Json.obj [(kData, Json.num 5)]

def c9Args : CliArgs :=
  { url := "http://h".data, email := "e@x".data, password := "p".data
    authEndpoint := "/auth/token".data, graphqlEndpoint := "/graphql".data
    query := some ("q".data), queryFile := none, variablesArg := none
    verbose := false }

def c9ReadFile : List Char → FileResult := fun _ => FileResult.err

def c9LoginResp : TransportResult :=
  TransportResult.ok
    { status := 200
      body := some (Json.obj [(kSuccess, Json.bool true), (kToken, Json.str ['t'])])
      text := [] }

def c9QueryNet : QueryRequest → TransportResult :=
  fun _ => TransportResult.ok { status := 200, body := some c9Body, text := [] }

/-- Result body used to refute claim C6: `data.products` is present but
is the empty dict, which is falsy, so the products branch never fires. -/
def c6Dkvs : List (List Char × Json) := [(kProducts, Json.obj [])]

def c6Body : Json := Json.obj [(kData, Json.obj c6Dkvs)]

/-- The spec's products example: totalCount 2, one fully populated item
and one empty item. -/
def c6Item1 : Json :=
  Json.obj [(kTitle, Json.str ['A']), (kVendor, Json.str ['V', '1']),
    (kMinPrice, Json.num 1), (kMaxPrice, Json.num 2)]

def c6Items : List Json := [c6Item1, Json.obj []]

def c6WitnessPkvs : List (List Char × Json) :=
  [(kTotalCount, Json.num 2), (kItems, Json.arr c6Items)]

def c6WitnessDkvs : List (List Char × Json) :=
  [(kProducts, Json.obj c6WitnessPkvs)]

def c6WitnessRkvs : List (List Char × Json) :=
  [(kData, Json.obj c6WitnessDkvs)]

/-- A concrete JSON document exercising every constructor, escapes
included, used as round-trip witness. -/
def c5Witness : Json :=
  Json.obj
    [(['a'], Json.arr [Json.num (-12), Json.str ['h', '\n', '\x22'], Json.bool true, Json.null]),
     (['b'], Json.obj []),
     (['c', '\x5c'], Json.str ['中', '\x01'])]

/-! ## Round-trip of `dumps` through the parser: auxiliary lemmas -/

theorem skipWs_cons_not (c : Char) (s : List Char) (h : isWs c = false) :
    skipWs (c :: s) = c :: s := by
  simp [skipWs, h]

theorem skipWs_append_ws (w s : List Char) (h : allWs w) : skipWs (w ++ s) = skipWs s := by
  induction w with
  | nil => rfl
  | cons c t IH =>
    have hc : isWs c = true := h c (List.mem_cons_self c t)
    have ht : allWs t := fun x hx => h x (List.mem_cons_of_mem c hx)
    simp [skipWs, hc, IH ht]

theorem allWs_spaces (n : Nat) : allWs (spaces n) := by
  induction n with
  | zero => intro c hc; cases hc
  | succ n IH =>
    intro c hc
    cases hc with
    | head => decide
    | tail _ h => exact IH c h

theorem allWs_nlIndent (d : Nat) : allWs (nlIndent d) := by
  intro c hc
  cases hc with
  | head => decide
  | tail _ h => exact allWs_spaces (2 * d) c h

theorem isDigitCh_not_ws (c : Char) (h : isDigitCh c = true) : isWs c = false := by
  simp [isDigitCh] at h
  simp [isWs]
  omega

theorem isDigitCh_digitCh (n : Nat) (h : n < 10) : isDigitCh (digitCh n) = true := by
  interval_cases n <;> decide

theorem digitVal_digitCh (n : Nat) (h : n < 10) : digitVal (digitCh n) = n := by
  interval_cases n <;> decide

theorem natCharsAux_eq (n : Nat) : ∀ acc, natCharsAux n acc = natCharsAux n [] ++ acc := by
  induction n using Nat.strong_induction_on with
  | _ n IH =>
    intro acc
    match n with
    | 0 => simp [natCharsAux]
    | m + 1 =>
      have hlt : (m + 1) / 10 < m + 1 := Nat.div_lt_self (Nat.succ_pos m) (by norm_num)
      rw [natCharsAux, natCharsAux, IH _ hlt (digitCh ((m + 1) % 10) :: acc),
        IH _ hlt [digitCh ((m + 1) % 10)]]
      simp

theorem natCharsAux_digits (n : Nat) :
    ∀ c ∈ natCharsAux n [], isDigitCh c = true := by
  induction n using Nat.strong_induction_on with
  | _ n IH =>
    match n with
    | 0 => intro c hc; simp [natCharsAux] at hc
    | m + 1 =>
      have hlt : (m + 1) / 10 < m + 1 := Nat.div_lt_self (Nat.succ_pos m) (by norm_num)
      intro c hc
      rw [natCharsAux, natCharsAux_eq] at hc
      rcases List.mem_append.mp hc with h | h
      · exact IH _ hlt c h
      · rcases List.mem_singleton.mp h with rfl
        exact isDigitCh_digitCh _ (Nat.mod_lt _ (by norm_num))

theorem natChars_digits (n : Nat) : ∀ c ∈ natChars n, isDigitCh c = true := by
  unfold natChars
  split
  · intro c hc; rcases List.mem_singleton.mp hc with rfl; decide
  · exact natCharsAux_digits n

theorem natCharsAux_ne_nil (n : Nat) (h : 0 < n) : natCharsAux n [] ≠ [] := by
  cases n with
  | zero => omega
  | succ m =>
    rw [natCharsAux, natCharsAux_eq]
    simp

theorem natChars_ne_nil (n : Nat) : natChars n ≠ [] := by
  unfold natChars
  split
  · simp
  · exact natCharsAux_ne_nil n (by omega)

theorem foldDec_natCharsAux (n : Nat) :
    ∀ a, (natCharsAux n []).foldl (fun a c => 10 * a + digitVal c) a
      = a * 10 ^ (natCharsAux n []).length + n := by
  induction n using Nat.strong_induction_on with
  | _ n IH =>
    intro a
    match n with
    | 0 => simp [natCharsAux]
    | m + 1 =>
      have hlt : (m + 1) / 10 < m + 1 := Nat.div_lt_self (Nat.succ_pos m) (by norm_num)
      rw [natCharsAux, natCharsAux_eq, List.foldl_append, IH _ hlt a]
      simp only [List.foldl_cons, List.foldl_nil, List.length_append, List.length_cons,
        List.length_nil]
      rw [digitVal_digitCh _ (Nat.mod_lt _ (by norm_num))]
      rw [Nat.mul_add, Nat.mul_comm 10 (a * 10 ^ (natCharsAux ((m + 1) / 10) []).length)]
      rw [pow_succ]
      have := Nat.div_add_mod (m + 1) 10
      ring_nf
      omega

theorem foldDec_natChars (n : Nat) :
    (natChars n).foldl (fun a c => 10 * a + digitVal c) 0 = n := by
  unfold natChars
  split
  · simp_all [digitVal]
  · rw [foldDec_natCharsAux n 0]; simp

theorem takeWhile_all_append (p : Char → Bool) (xs ys : List Char)
    (h : ∀ c ∈ xs, p c = true) (hy : ys.takeWhile p = []) :
    (xs ++ ys).takeWhile p = xs ∧ (xs ++ ys).dropWhile p = ys := by
  induction xs with
  | nil =>
    constructor
    · exact hy
    · cases ys with
      | nil => rfl
      | cons c t =>
        simp only [List.takeWhile] at hy
        simp only [List.nil_append, List.dropWhile]
        cases hp : p c with
        | true => rw [hp] at hy; simp at hy
        | false => rfl
  | cons c t IH =>
    have hc : p c = true := h c (List.mem_cons_self c t)
    have ht : ∀ x ∈ t, p x = true := fun x hx => h x (List.mem_cons_of_mem c hx)
    have := IH ht
    constructor
    · simp [List.takeWhile, hc, this.1]
    · simp [List.dropWhile, hc, this.2]

theorem noDigitHead_takeWhile (r : List Char) (h : noDigitHead r) :
    r.takeWhile isDigitCh = [] := by
  cases r with
  | nil => rfl
  | cons c t => simp [noDigitHead] at h; simp [List.takeWhile, h]

theorem readNat_natChars (n : Nat) (r : List Char) (hr : noDigitHead r) :
    readNat (natChars n ++ r) = some (n, r) := by
  have h := takeWhile_all_append isDigitCh (natChars n) r (natChars_digits n)
    (noDigitHead_takeWhile r hr)
  unfold readNat
  rw [h.1, h.2]
  simp only [List.isEmpty_iff]
  rw [if_neg (natChars_ne_nil n)]
  rw [foldDec_natChars]

theorem hex_rt : ∀ n < 32,
    isHexCh (hexDigitCh (n / 16)) = true ∧ isHexCh (hexDigitCh (n % 16)) = true ∧
    hexVal (hexDigitCh (n / 16)) * 16 + hexVal (hexDigitCh (n % 16)) = n := by
  decide

theorem parseStringBody_esc (s : List Char) : ∀ r,
    parseStringBody (escString s ++ '\x22' :: r) = some (s, r) := by
  induction s with
  | nil =>
    intro r
    show parseStringBody ('\x22' :: r) = _
    rw [parseStringBody.eq_def]; simp
  | cons c t IH =>
    intro r
    show parseStringBody ((escChar c ++ escString t) ++ '\x22' :: r) = _
    rw [List.append_assoc]
    by_cases h1 : c = '\x22'
    · subst h1
      have e : escChar '\x22' = ['\x5c', '\x22'] := by decide
      rw [e, List.cons_append, List.cons_append, List.nil_append,
        parseStringBody.eq_def]
      simp [IH r]
    · by_cases h2 : c = '\x5c'
      · subst h2
        have e : escChar '\x5c' = ['\x5c', '\x5c'] := by decide
        rw [e, List.cons_append, List.cons_append, List.nil_append,
          parseStringBody.eq_def]
        simp [IH r]
      · by_cases h3 : c = '\x08'
        · subst h3
          have e : escChar '\x08' = ['\x5c', 'b'] := by decide
          rw [e, List.cons_append, List.cons_append, List.nil_append,
            parseStringBody.eq_def]
          simp [IH r]
        · by_cases h4 : c = '\x0c'
          · subst h4
            have e : escChar '\x0c' = ['\x5c', 'f'] := by decide
            rw [e, List.cons_append, List.cons_append, List.nil_append,
              parseStringBody.eq_def]
            simp [IH r]
          · by_cases h5 : c = '\n'
            · subst h5
              have e : escChar '\n' = ['\x5c', 'n'] := by decide
              rw [e, List.cons_append, List.cons_append, List.nil_append,
                parseStringBody.eq_def]
              simp [IH r]
            · by_cases h6 : c = '\r'
              · subst h6
                have e : escChar '\r' = ['\x5c', 'r'] := by decide
                rw [e, List.cons_append, List.cons_append, List.nil_append,
                  parseStringBody.eq_def]
                simp [IH r]
              · by_cases h7 : c = '\t'
                · subst h7
                  have e : escChar '\t' = ['\x5c', 't'] := by decide
                  rw [e, List.cons_append, List.cons_append, List.nil_append,
                    parseStringBody.eq_def]
                  simp [IH r]
                · by_cases h8 : c.toNat < 32
                  · obtain ⟨ha, hb, hv⟩ := hex_rt c.toNat h8
                    rw [escChar, if_neg h1, if_neg h2, if_neg h3, if_neg h4, if_neg h5,
                      if_neg h6, if_neg h7, if_pos h8]
                    simp only [List.cons_append, List.nil_append]
                    rw [parseStringBody.eq_def]
                    simp only [ha, hb]
                    simp [IH r]
                    have h0 : hexVal '0' = 0 := by decide
                    rw [h0]
                    norm_num
                    rw [hv, Char.ofNat_toNat]
                    exact ⟨by decide, rfl⟩
                  · rw [escChar, if_neg h1, if_neg h2, if_neg h3, if_neg h4, if_neg h5,
                      if_neg h6, if_neg h7, if_neg h8]
                    simp only [List.cons_append, List.nil_append]
                    rw [parseStringBody.eq_def]
                    simp [h1, h2, IH r]

theorem ws_not_digit (c : Char) (h : isWs c = true) : isDigitCh c = false := by
  simp [isWs] at h
  simp [isDigitCh]
  omega

theorem noDigitHead_ws_cons (w : List Char) (c0 : Char) (r : List Char)
    (hw : allWs w) (hc : isDigitCh c0 = false) : noDigitHead (w ++ c0 :: r) := by
  cases w with
  | nil => exact hc
  | cons c t => exact ws_not_digit c (hw c (List.mem_cons_self c t))

theorem digit_notin (c : Char) (h : isDigitCh c = true) :
    c ≠ '\x7b' ∧ c ≠ '[' ∧ c ≠ '\x22' ∧ c ≠ 'n' ∧ c ≠ 't' ∧ c ≠ 'f' ∧ c ≠ '-'
      ∧ c ≠ ']' ∧ c ≠ ',' ∧ isWs c = false := by
  refine ⟨?_, ?_, ?_, ?_, ?_, ?_, ?_, ?_, ?_, isDigitCh_not_ws c h⟩ <;>
    (intro e; subst e; exact absurd h (by decide))

theorem natChars_head (n : Nat) :
    ∃ c t, natChars n = c :: t ∧ isDigitCh c = true := by
  cases h : natChars n with
  | nil => exact absurd h (natChars_ne_nil n)
  | cons c t =>
    refine ⟨c, t, rfl, ?_⟩
    have : c ∈ natChars n := by rw [h]; exact List.mem_cons_self c t
    exact natChars_digits n c this

theorem emit_head (d : Nat) (j : Json) :
    ∃ c t, emit d j = c :: t ∧ isWs c = false ∧ c ≠ ']' := by
  cases j with
  | null => exact ⟨'n', ['u', 'l', 'l'], by simp [emit], by decide, by decide⟩
  | bool b =>
    cases b with
    | true => exact ⟨'t', ['r', 'u', 'e'], by simp [emit], by decide, by decide⟩
    | false => exact ⟨'f', ['a', 'l', 's', 'e'], by simp [emit], by decide, by decide⟩
  | num n =>
    by_cases hn : n < 0
    · exact ⟨'-', natChars n.natAbs, by simp [emit, intChars, hn], by decide, by decide⟩
    · obtain ⟨c, t, hct, hcd⟩ := natChars_head n.toNat
      refine ⟨c, t, ?_, isDigitCh_not_ws c hcd, (digit_notin c hcd).2.2.2.2.2.2.2.1⟩
      simp [emit, intChars, hn, hct]
  | str s =>
    exact ⟨'\x22', escString s ++ ['\x22'], by simp [emit, strEmit], by decide, by decide⟩
  | arr xs =>
    cases xs with
    | nil => exact ⟨'[', [']'], by simp [emit], by decide, by decide⟩
    | cons x t =>
      exact ⟨'[', nlIndent (d + 1) ++ emitItems (d + 1) x t ++ nlIndent d ++ [']'],
        by simp [emit], by decide, by decide⟩
  | obj kvs =>
    cases kvs with
    | nil => exact ⟨'\x7b', ['\x7d'], by simp [emit], by decide, by decide⟩
    | cons kv t =>
      obtain ⟨k, v⟩ := kv
      exact ⟨'\x7b', nlIndent (d + 1) ++ emitMembers (d + 1) (k, v) t ++ nlIndent d ++ ['\x7d'],
        by simp [emit], by decide, by decide⟩

theorem emitItems_head (d : Nat) (x : Json) (xs : List Json) :
    ∃ c t, emitItems d x xs = c :: t ∧ isWs c = false ∧ c ≠ ']' := by
  obtain ⟨c, t, hct, hw, hb⟩ := emit_head d x
  cases xs with
  | nil => exact ⟨c, t, by simp [emitItems, hct], hw, hb⟩
  | cons y ys =>
    refine ⟨c, t ++ ',' :: (nlIndent d ++ emitItems d y ys), ?_, hw, hb⟩
    simp [emitItems, hct]

theorem parseValue_ws (f : Nat) (w s : List Char) (h : allWs w) :
    parseValue f (w ++ s) = parseValue f s := by
  cases f with
  | zero => rfl
  | succ f => rw [parseValue, parseValue, skipWs_append_ws w s h]

theorem parseItems_ws (f : Nat) (w s : List Char) (h : allWs w) :
    parseItems f (w ++ s) = parseItems f s := by
  cases f with
  | zero => rfl
  | succ f => rw [parseItems, parseItems, parseValue_ws f w s h]

theorem parseMembers_ws (f : Nat) (w s : List Char) (h : allWs w) :
    parseMembers f (w ++ s) = parseMembers f s := by
  cases f with
  | zero => rfl
  | succ f => rw [parseMembers, parseMembers, skipWs_append_ws w s h]

theorem jfuel_pos (j : Json) : 1 ≤ jfuel j := by
  cases j <;> simp [jfuel] <;> omega

theorem ifuel_pos (xs : List Json) : 1 ≤ ifuel xs := by
  cases xs <;> simp [ifuel] <;> omega

theorem mfuel_pos (ms : List (List Char × Json)) : 1 ≤ mfuel ms := by
  cases ms with
  | nil => simp [mfuel]
  | cons m t => obtain ⟨k, v⟩ := m; simp [mfuel]; omega

theorem rt_null (f d : Nat) (r : List Char) :
    parseValue (f + 1) (emit d Json.null ++ r) = some (Json.null, r) := by
  have hh : emit d Json.null ++ r = 'n' :: 'u' :: 'l' :: 'l' :: r := by simp [emit]
  rw [hh, parseValue]
  simp [skipWs, isWs]

theorem rt_bool (f d : Nat) (b : Bool) (r : List Char) :
    parseValue (f + 1) (emit d (Json.bool b) ++ r) = some (Json.bool b, r) := by
  cases b with
  | true =>
    have hh : emit d (Json.bool true) ++ r = 't' :: 'r' :: 'u' :: 'e' :: r := by simp [emit]
    rw [hh, parseValue]
    simp [skipWs, isWs]
  | false =>
    have hh : emit d (Json.bool false) ++ r = 'f' :: 'a' :: 'l' :: 's' :: 'e' :: r := by
      simp [emit]
    rw [hh, parseValue]
    simp [skipWs, isWs]

theorem rt_num (f d : Nat) (n : Int) (r : List Char) (hr : noDigitHead r) :
    parseValue (f + 1) (emit d (Json.num n) ++ r) = some (Json.num n, r) := by
  by_cases hn : n < 0
  · have hh : emit d (Json.num n) ++ r = '-' :: (natChars n.natAbs ++ r) := by
      simp [emit, intChars, hn]
    rw [hh, parseValue, skipWs_cons_not _ _ (by decide)]
    have habs : ((n.natAbs : Int)) = -n := Int.ofNat_natAbs_of_nonpos (by omega)
    simp [readNat_natChars _ _ hr, habs]
  · obtain ⟨c, t0, hct, hcd⟩ := natChars_head n.toNat
    obtain ⟨e1, e2, e3, e4, e5, e6, e7, e8, e9, ew⟩ := digit_notin c hcd
    have hh : emit d (Json.num n) ++ r = c :: (t0 ++ r) := by
      simp [emit, intChars, hn, hct]
    rw [hh, parseValue, skipWs_cons_not _ _ ew]
    simp only [e1, e2, e3, e4, e5, e6, e7, if_neg]
    rw [← List.cons_append, ← hct, readNat_natChars _ _ hr]
    simp [Int.toNat_of_nonneg (by omega : (0 : Int) ≤ n)]

theorem rt_str (f d : Nat) (s : List Char) (r : List Char) :
    parseValue (f + 1) (emit d (Json.str s) ++ r) = some (Json.str s, r) := by
  have hh : emit d (Json.str s) ++ r = '\x22' :: (escString s ++ '\x22' :: r) := by
    simp [emit, strEmit]
  rw [hh, parseValue, skipWs_cons_not _ _ (by decide)]
  simp [parseStringBody_esc s r]

theorem rt_arr_nil (f d : Nat) (r : List Char) :
    parseValue (f + 1) (emit d (Json.arr []) ++ r) = some (Json.arr [], r) := by
  have hh : emit d (Json.arr []) ++ r = '[' :: ']' :: r := by simp [emit]
  rw [hh, parseValue]
  simp [skipWs, isWs]

theorem rt_obj_nil (f d : Nat) (r : List Char) :
    parseValue (f + 1) (emit d (Json.obj []) ++ r) = some (Json.obj [], r) := by
  have hh : emit d (Json.obj []) ++ r = '\x7b' :: '\x7d' :: r := by simp [emit]
  rw [hh, parseValue]
  simp [skipWs, isWs]

theorem emitMembers_head (d : Nat) (k : List Char) (v : Json)
    (ms : List (List Char × Json)) :
    ∃ t, emitMembers d (k, v) ms = '\x22' :: t := by
  cases ms with
  | nil => exact ⟨escString k ++ '\x22' :: ':' :: ' ' :: emit d v, by simp [emitMembers, strEmit]⟩
  | cons m ms' =>
    exact ⟨escString k ++ '\x22' :: ':' :: ' ' ::
      (emit d v ++ ',' :: (nlIndent d ++ emitMembers d m ms')),
      by simp [emitMembers, strEmit]⟩

theorem allWs_single_space : allWs [' '] := by
  intro c hc
  rcases List.mem_singleton.mp hc with rfl
  decide

theorem rt_arr_cons (f d : Nat) (x : Json) (xs : List Json) (r : List Char)
    (IHi : ∀ d x xs w r, ifuel (x :: xs) ≤ f → allWs w →
      parseItems f (emitItems d x xs ++ (w ++ ']' :: r)) = some (x :: xs, r))
    (hf : jfuel (Json.arr (x :: xs)) ≤ f + 1) :
    parseValue (f + 1) (emit d (Json.arr (x :: xs)) ++ r)
      = some (Json.arr (x :: xs), r) := by
  obtain ⟨c, t0, hct, hcw, hcb⟩ := emitItems_head (d + 1) x xs
  have hh : emit d (Json.arr (x :: xs)) ++ r
      = '[' :: (nlIndent (d + 1) ++ (emitItems (d + 1) x xs ++ (nlIndent d ++ ']' :: r))) := by
    simp [emit]
  have hskip : skipWs (nlIndent (d + 1) ++ (emitItems (d + 1) x xs ++ (nlIndent d ++ ']' :: r)))
      = c :: (t0 ++ (nlIndent d ++ ']' :: r)) := by
    rw [skipWs_append_ws _ _ (allWs_nlIndent (d + 1)), hct, List.cons_append,
      skipWs_cons_not _ _ hcw]
  have hfi : ifuel (x :: xs) ≤ f := by simp [jfuel] at hf; omega
  have happ : c :: (t0 ++ (nlIndent d ++ ']' :: r))
      = emitItems (d + 1) x xs ++ (nlIndent d ++ ']' :: r) := by rw [hct]; rfl
  rw [hh, parseValue, skipWs_cons_not _ _ (by decide)]
  simp only [hskip]
  simp [hcb]
  rw [happ, IHi (d + 1) x xs (nlIndent d) r hfi (allWs_nlIndent d)]

theorem rt_obj_cons (f d : Nat) (k : List Char) (v : Json)
    (ms : List (List Char × Json)) (r : List Char)
    (IHm : ∀ d k v ms w r, mfuel ((k, v) :: ms) ≤ f → allWs w →
      parseMembers f (emitMembers d (k, v) ms ++ (w ++ '\x7d' :: r)) = some ((k, v) :: ms, r))
    (hf : jfuel (Json.obj ((k, v) :: ms)) ≤ f + 1) :
    parseValue (f + 1) (emit d (Json.obj ((k, v) :: ms)) ++ r)
      = some (Json.obj ((k, v) :: ms), r) := by
  obtain ⟨mt, hmt⟩ := emitMembers_head (d + 1) k v ms
  have hh : emit d (Json.obj ((k, v) :: ms)) ++ r
      = '\x7b' :: (nlIndent (d + 1) ++ (emitMembers (d + 1) (k, v) ms
        ++ (nlIndent d ++ '\x7d' :: r))) := by
    simp [emit]
  have hskip : skipWs (nlIndent (d + 1) ++ (emitMembers (d + 1) (k, v) ms
      ++ (nlIndent d ++ '\x7d' :: r)))
      = '\x22' :: (mt ++ (nlIndent d ++ '\x7d' :: r)) := by
    rw [skipWs_append_ws _ _ (allWs_nlIndent (d + 1)), hmt, List.cons_append,
      skipWs_cons_not _ _ (by decide)]
  have hfm : mfuel ((k, v) :: ms) ≤ f := by simp [jfuel] at hf; omega
  have happ : '\x22' :: (mt ++ (nlIndent d ++ '\x7d' :: r))
      = emitMembers (d + 1) (k, v) ms ++ (nlIndent d ++ '\x7d' :: r) := by rw [hmt]; rfl
  rw [hh, parseValue, skipWs_cons_not _ _ (by decide)]
  simp only [hskip]
  simp [show ('\x22' : Char) ≠ '\x7d' from by decide]
  rw [happ, IHm (d + 1) k v ms (nlIndent d) r hfm (allWs_nlIndent d)]

theorem rt_items (f d : Nat) (x : Json) (xs : List Json) (w r : List Char)
    (IHv : ∀ d j r, jfuel j ≤ f → noDigitHead r →
      parseValue f (emit d j ++ r) = some (j, r))
    (IHi : ∀ d x xs w r, ifuel (x :: xs) ≤ f → allWs w →
      parseItems f (emitItems d x xs ++ (w ++ ']' :: r)) = some (x :: xs, r))
    (hf : ifuel (x :: xs) ≤ f + 1) (hw : allWs w) :
    parseItems (f + 1) (emitItems d x xs ++ (w ++ ']' :: r)) = some (x :: xs, r) := by
  cases xs with
  | nil =>
    have hfx : jfuel x ≤ f := by simp [ifuel] at hf; omega
    have hh : emitItems d x [] ++ (w ++ ']' :: r) = emit d x ++ (w ++ ']' :: r) := by
      simp [emitItems]
    have h1 : skipWs (w ++ ']' :: r) = ']' :: r := by
      rw [skipWs_append_ws _ _ hw, skipWs_cons_not _ _ (by decide)]
    rw [parseItems, hh,
      IHv d x (w ++ ']' :: r) hfx (noDigitHead_ws_cons w _ r hw (by decide))]
    simp [h1, show (']' : Char) ≠ ',' from by decide]
  | cons y ys =>
    have hfx : jfuel x ≤ f := by simp [ifuel] at hf; omega
    have hfyy : ifuel (y :: ys) ≤ f := by simp [ifuel] at hf ⊢; omega
    have hh : emitItems d x (y :: ys) ++ (w ++ ']' :: r)
        = emit d x ++ (',' :: (nlIndent d ++ (emitItems d y ys ++ (w ++ ']' :: r)))) := by
      simp [emitItems]
    have h4 : parseItems f (nlIndent d ++ (emitItems d y ys ++ (w ++ ']' :: r)))
        = some (y :: ys, r) := by
      rw [parseItems_ws f _ _ (allWs_nlIndent d)]
      exact IHi d y ys w r hfyy hw
    rw [parseItems, hh, IHv d x _ hfx (by simp [noDigitHead]; decide)]
    simp [skipWs, isWs, h4]

theorem rt_members (f d : Nat) (k : List Char) (v : Json)
    (ms : List (List Char × Json)) (w r : List Char)
    (IHv : ∀ d j r, jfuel j ≤ f → noDigitHead r →
      parseValue f (emit d j ++ r) = some (j, r))
    (IHm : ∀ d k v ms w r, mfuel ((k, v) :: ms) ≤ f → allWs w →
      parseMembers f (emitMembers d (k, v) ms ++ (w ++ '\x7d' :: r)) = some ((k, v) :: ms, r))
    (hf : mfuel ((k, v) :: ms) ≤ f + 1) (hw : allWs w) :
    parseMembers (f + 1) (emitMembers d (k, v) ms ++ (w ++ '\x7d' :: r))
      = some ((k, v) :: ms, r) := by
  cases ms with
  | nil =>
    have hfv : jfuel v ≤ f := by simp [mfuel] at hf; omega
    have hh : emitMembers d (k, v) [] ++ (w ++ '\x7d' :: r)
        = '\x22' :: (escString k ++ '\x22' :: (':' :: ' ' :: (emit d v ++ (w ++ '\x7d' :: r)))) := by
      simp [emitMembers, strEmit]
    have h1 : parseStringBody (escString k ++ '\x22' :: (':' :: ' ' :: (emit d v ++ (w ++ '\x7d' :: r))))
        = some (k, ':' :: ' ' :: (emit d v ++ (w ++ '\x7d' :: r))) := parseStringBody_esc k _
    have h2 : parseValue f (' ' :: (emit d v ++ (w ++ '\x7d' :: r)))
        = some (v, w ++ '\x7d' :: r) := by
      have hsp : (' ' :: (emit d v ++ (w ++ '\x7d' :: r)))
          = [' '] ++ (emit d v ++ (w ++ '\x7d' :: r)) := rfl
      rw [hsp, parseValue_ws f [' '] _ allWs_single_space,
        IHv d v (w ++ '\x7d' :: r) hfv (noDigitHead_ws_cons w _ r hw (by decide))]
    have h3 : skipWs (w ++ '\x7d' :: r) = '\x7d' :: r := by
      rw [skipWs_append_ws _ _ hw, skipWs_cons_not _ _ (by decide)]
    rw [parseMembers, hh, skipWs_cons_not _ _ (by decide)]
    simp [h1, h2, h3, skipWs, isWs, show ('\x7d' : Char) ≠ ',' from by decide]
  | cons m ms' =>
    obtain ⟨k2, v2⟩ := m
    have hfv : jfuel v ≤ f := by simp [mfuel] at hf; omega
    have hfm : mfuel ((k2, v2) :: ms') ≤ f := by simp [mfuel] at hf ⊢; omega
    have hh : emitMembers d (k, v) ((k2, v2) :: ms') ++ (w ++ '\x7d' :: r)
        = '\x22' :: (escString k ++ '\x22' :: (':' :: ' ' :: (emit d v
          ++ (',' :: (nlIndent d ++ (emitMembers d (k2, v2) ms' ++ (w ++ '\x7d' :: r))))))) := by
      simp [emitMembers, strEmit]
    have h1 : parseStringBody (escString k ++ '\x22' :: (':' :: ' ' :: (emit d v
        ++ (',' :: (nlIndent d ++ (emitMembers d (k2, v2) ms' ++ (w ++ '\x7d' :: r)))))))
        = some (k, ':' :: ' ' :: (emit d v
          ++ (',' :: (nlIndent d ++ (emitMembers d (k2, v2) ms' ++ (w ++ '\x7d' :: r)))))) :=
      parseStringBody_esc k _
    have h2 : parseValue f (' ' :: (emit d v
        ++ (',' :: (nlIndent d ++ (emitMembers d (k2, v2) ms' ++ (w ++ '\x7d' :: r))))))
        = some (v, ',' :: (nlIndent d ++ (emitMembers d (k2, v2) ms' ++ (w ++ '\x7d' :: r)))) := by
      have hsp : (' ' :: (emit d v
          ++ (',' :: (nlIndent d ++ (emitMembers d (k2, v2) ms' ++ (w ++ '\x7d' :: r))))))
          = [' '] ++ (emit d v
            ++ (',' :: (nlIndent d ++ (emitMembers d (k2, v2) ms' ++ (w ++ '\x7d' :: r))))) := rfl
      rw [hsp, parseValue_ws f [' '] _ allWs_single_space,
        IHv d v _ hfv (by simp [noDigitHead]; decide)]
    have h4 : parseMembers f (nlIndent d ++ (emitMembers d (k2, v2) ms' ++ (w ++ '\x7d' :: r)))
        = some ((k2, v2) :: ms', r) := by
      rw [parseMembers_ws f _ _ (allWs_nlIndent d)]
      exact IHm d k2 v2 ms' w r hfm hw
    rw [parseMembers, hh, skipWs_cons_not _ _ (by decide)]
    simp [h1, h2, h4, skipWs, isWs]

theorem roundtripAux : ∀ f : Nat,
    (∀ d j r, jfuel j ≤ f → noDigitHead r →
      parseValue f (emit d j ++ r) = some (j, r)) ∧
    (∀ d x xs w r, ifuel (x :: xs) ≤ f → allWs w →
      parseItems f (emitItems d x xs ++ (w ++ ']' :: r)) = some (x :: xs, r)) ∧
    (∀ d k v ms w r, mfuel ((k, v) :: ms) ≤ f → allWs w →
      parseMembers f (emitMembers d (k, v) ms ++ (w ++ '\x7d' :: r))
        = some ((k, v) :: ms, r)) := by
  intro f
  induction f with
  | zero =>
    refine ⟨?_, ?_, ?_⟩
    · intro d j r hf _
      exact absurd hf (by have := jfuel_pos j; omega)
    · intro d x xs w r hf _
      simp [ifuel] at hf
    · intro d k v ms w r hf _
      simp [mfuel] at hf
  | succ f IH =>
    obtain ⟨IHv, IHi, IHm⟩ := IH
    refine ⟨?_, ?_, ?_⟩
    · intro d j r hf hr
      cases j with
      | null => exact rt_null f d r
      | bool b => exact rt_bool f d b r
      | num n => exact rt_num f d n r hr
      | str s => exact rt_str f d s r
      | arr xs =>
        cases xs with
        | nil => exact rt_arr_nil f d r
        | cons x t => exact rt_arr_cons f d x t r IHi hf
      | obj kvs =>
        cases kvs with
        | nil => exact rt_obj_nil f d r
        | cons kv t =>
          obtain ⟨k, v⟩ := kv
          exact rt_obj_cons f d k v t r IHm hf
    · intro d x xs w r hf hw
      exact rt_items f d x xs w r IHv IHi hf hw
    · intro d k v ms w r hf hw
      exact rt_members f d k v ms w r IHv IHm hf hw

theorem spaces_length (n : Nat) : (spaces n).length = n := by
  induction n with
  | zero => rfl
  | succ n IH => simp [spaces, IH]

theorem nlIndent_length (d : Nat) : (nlIndent d).length = 2 * d + 1 := by
  simp [nlIndent, spaces_length]

theorem natChars_length_pos (n : Nat) : 0 < (natChars n).length :=
  List.length_pos.mpr (natChars_ne_nil n)

theorem fuel_le_emit_all : ∀ N : Nat,
    (∀ j d, sizeOf j ≤ N → jfuel j ≤ (emit d j).length) ∧
    (∀ x xs d, sizeOf x + sizeOf xs ≤ N →
      jfuel x + ifuel xs ≤ (emitItems d x xs).length + 2) ∧
    (∀ k v ms d, sizeOf v + sizeOf ms ≤ N →
      jfuel v + mfuel ms ≤ (emitMembers d (k, v) ms).length + 2) := by
  intro N
  induction N with
  | zero =>
    refine ⟨?_, ?_, ?_⟩
    · intro j d h; exfalso; cases j <;> simp at h
    · intro x xs d h; exfalso; cases x <;> simp at h
    · intro k v ms d h; exfalso; cases v <;> simp at h
  | succ N IH =>
    obtain ⟨IH1, IH2, IH3⟩ := IH
    refine ⟨?_, ?_, ?_⟩
    · intro j d h
      cases j with
      | null => simp [jfuel, emit]
      | bool b => cases b <;> simp [jfuel, emit]
      | num n =>
        have h1 := natChars_length_pos n.natAbs
        have h2 := natChars_length_pos n.toNat
        by_cases hn : n < 0 <;> simp [jfuel, emit, intChars, hn] <;> try omega
      | str s => simp [jfuel, emit, strEmit]
      | arr xs =>
        cases xs with
        | nil => simp [jfuel, ifuel, emit]
        | cons x t =>
          have hsz : sizeOf x + sizeOf t ≤ N := by
            simp at h; omega
          have := IH2 x t (d + 1) hsz
          simp [jfuel, emit, nlIndent_length]
          simp [ifuel] at this ⊢
          omega
      | obj kvs =>
        cases kvs with
        | nil => simp [jfuel, mfuel, emit]
        | cons kv t =>
          obtain ⟨k, v⟩ := kv
          have hsz : sizeOf v + sizeOf t ≤ N := by
            simp at h; omega
          have := IH3 k v t (d + 1) hsz
          simp [jfuel, emit, nlIndent_length]
          simp [mfuel] at this ⊢
          omega
    · intro x xs d h
      cases xs with
      | nil =>
        have hx : sizeOf x ≤ N := by simp at h; omega
        have := IH1 x d hx
        simp [ifuel, emitItems]
        omega
      | cons y ys =>
        have hx : sizeOf x ≤ N := by simp at h; omega
        have hyy : sizeOf y + sizeOf ys ≤ N := by simp at h; omega
        have hx1 := IH1 x d hx
        have hyy2 := IH2 y ys d hyy
        simp [ifuel, emitItems, nlIndent_length] at hyy2 ⊢
        omega
    · intro k v ms d h
      cases ms with
      | nil =>
        have hv : sizeOf v ≤ N := by simp at h; omega
        have := IH1 v d hv
        simp [mfuel, emitMembers, strEmit]
        omega
      | cons m ms' =>
        obtain ⟨k2, v2⟩ := m
        have hv : sizeOf v ≤ N := by simp at h; omega
        have hmm : sizeOf v2 + sizeOf ms' ≤ N := by simp at h; omega
        have hv1 := IH1 v d hv
        have hmm2 := IH3 k2 v2 ms' d hmm
        simp [mfuel, emitMembers, strEmit, nlIndent_length] at hmm2 ⊢
        omega

/-- `json.loads (json.dumps j)` recovers `j` exactly: the pretty-printed
emission reparses to the same JSON value. -/
theorem reparse_dumps (j : Json) : reparse (dumps j) = some j := by
  have hb : jfuel j ≤ (dumps j).length :=
    (fuel_le_emit_all (sizeOf j)).1 j 0 le_rfl
  have h1 : parseValue ((dumps j).length + 1) (emit 0 j ++ []) = some (j, []) :=
    (roundtripAux ((dumps j).length + 1)).1 0 j [] (by omega) trivial
  rw [List.append_nil] at h1
  rw [reparse]
  rw [show dumps j = emit 0 j from rfl] at h1 ⊢
  rw [h1]
  rfl

/-! ## Claims -/

/-- Claim C1: with Session.token unset, `execute_query` reports an error
and returns the absent-result sentinel (None) without making any network
call; nothing reaches the transport. -/
theorem execute_query_unset_token (st : Session) (q : List Char) (v : Option Json)
    (ep : List Char) (net : QueryRequest → TransportResult)
    (h : st.token = none) :
    (execute_query st q v ep net).retVal = none ∧
    (execute_query st q v ep net).sent = [] ∧
    (execute_query st q v ep net).raised = false ∧
    (execute_query st q v ep net).output = [OutEvent.noTokenError] := by
  simp [execute_query, h]

theorem execute_query_unset_token_witness :
    ({ base_url := "http://h".data, token := none, verbose := false } : Session).token = none ∧
    ((execute_query { base_url := "http://h".data, token := none, verbose := false }
        ("q".data) none ("/graphql".data) (fun _ => TransportResult.exn)).retVal = none ∧
      (execute_query { base_url := "http://h".data, token := none, verbose := false }
        ("q".data) none ("/graphql".data) (fun _ => TransportResult.exn)).sent = [] ∧
      (execute_query { base_url := "http://h".data, token := none, verbose := false }
        ("q".data) none ("/graphql".data) (fun _ => TransportResult.exn)).raised = false ∧
      (execute_query { base_url := "http://h".data, token := none, verbose := false }
        ("q".data) none ("/graphql".data) (fun _ => TransportResult.exn)).output
        = [OutEvent.noTokenError]) :=
  ⟨rfl, execute_query_unset_token _ _ _ _ _ rfl⟩

/-- Claim C8: `execute_query` never mutates the stored token, whatever
the transport outcome. -/
theorem execute_query_token_frame (st : Session) (q : List Char) (v : Option Json)
    (ep : List Char) (net : QueryRequest → TransportResult) :
    (execute_query st q v ep net).finalToken = st.token := by
  simp only [execute_query]
  repeat' split
  all_goals rfl

/-- Claim C4: on HTTP 401 `execute_query` returns the absent-result
sentinel, whatever the response body contains. -/
theorem execute_query_401 (st : Session) (tok : Json) (q : List Char) (v : Option Json)
    (ep : List Char) (net : QueryRequest → TransportResult) (resp : HttpResponse)
    (htok : st.token = some tok) (htr : truthy tok = true)
    (hv : st.verbose = true → sliceable tok = true)
    (hnet : net (mkQueryRequest st q v ep tok) = TransportResult.ok resp)
    (hst : resp.status = 401) :
    (execute_query st q v ep net).retVal = none ∧
    (execute_query st q v ep net).raised = false := by
  have hvb : (st.verbose && !sliceable tok) = false := by
    cases hvbs : st.verbose
    · simp
    · simp [hv hvbs]
  simp [execute_query, htok, htr, hvb, hnet, hst]

theorem execute_query_401_witness :
    truthy (Json.str ['t']) = true ∧
    ((execute_query { base_url := "u".data, token := some (Json.str ['t']), verbose := false }
        ("q".data) none ("/graphql".data)
        (fun _ => TransportResult.ok { status := 401, body := none, text := [] })).retVal = none ∧
      (execute_query { base_url := "u".data, token := some (Json.str ['t']), verbose := false }
        ("q".data) none ("/graphql".data)
        (fun _ => TransportResult.ok { status := 401, body := none, text := [] })).raised = false) :=
  ⟨rfl, execute_query_401 _ (Json.str ['t']) _ _ _ _
    { status := 401, body := none, text := [] }
    rfl rfl (fun h => by simp at h) rfl rfl⟩

/-- Claim C7: with the token set (and the call reaching the transport),
exactly one request is sent; its JSON payload is the query plus a
`variables` key exactly when the supplied mapping is non-empty, and its
headers carry `Content-Type: application/json` and
`Authorization: Bearer <token>`. -/
theorem execute_query_request_shape (st : Session) (tok : Json) (q : List Char)
    (v : Option Json) (ep : List Char) (net : QueryRequest → TransportResult)
    (htok : st.token = some tok) (htr : truthy tok = true)
    (hv : st.verbose = true → sliceable tok = true)
    (hm : v = none ∨ ∃ m, v = some (Json.obj m)) :
    (execute_query st q v ep net).sent = [mkQueryRequest st q v ep tok] ∧
    (mkQueryRequest st q v ep tok).contentType = "application/json".data ∧
    (mkQueryRequest st q v ep tok).bearerToken = tok ∧
    (mkQueryRequest st q v ep tok).payload = Json.obj ((kQuery, Json.str q) ::
      (match v with
       | some (Json.obj m) => if m.isEmpty then [] else [(kVariables, Json.obj m)]
       | _ => [])) := by
  have hvb : (st.verbose && !sliceable tok) = false := by
    cases hvbs : st.verbose
    · simp
    · simp [hv hvbs]
  refine ⟨?_, rfl, rfl, ?_⟩
  · simp [execute_query, htok, htr, hvb]
    repeat' split
    all_goals simp
  · rcases hm with rfl | ⟨m, rfl⟩
    · rfl
    · cases hme : m.isEmpty <;> simp [mkQueryRequest, truthy, hme]

theorem execute_query_request_shape_witness :
    truthy (Json.str ['t']) = true ∧
    ((execute_query { base_url := "u".data, token := some (Json.str ['t']), verbose := false }
        ("q".data) (some (Json.obj [(['a'], Json.num 1)])) ("/graphql".data)
        (fun _ => TransportResult.exn)).sent
      = [mkQueryRequest { base_url := "u".data, token := some (Json.str ['t']), verbose := false }
          ("q".data) (some (Json.obj [(['a'], Json.num 1)])) ("/graphql".data)
          (Json.str ['t'])] ∧
      (mkQueryRequest { base_url := "u".data, token := some (Json.str ['t']), verbose := false }
          ("q".data) (some (Json.obj [(['a'], Json.num 1)])) ("/graphql".data)
          (Json.str ['t'])).contentType = "application/json".data ∧
      (mkQueryRequest { base_url := "u".data, token := some (Json.str ['t']), verbose := false }
          ("q".data) (some (Json.obj [(['a'], Json.num 1)])) ("/graphql".data)
          (Json.str ['t'])).bearerToken = Json.str ['t'] ∧
      (mkQueryRequest { base_url := "u".data, token := some (Json.str ['t']), verbose := false }
          ("q".data) (some (Json.obj [(['a'], Json.num 1)])) ("/graphql".data)
          (Json.str ['t'])).payload = Json.obj ((kQuery, Json.str ("q".data)) ::
        (match some (Json.obj [(['a'], Json.num 1)]) with
         | some (Json.obj m) => if m.isEmpty then [] else [(kVariables, Json.obj m)]
         | _ => []))) :=
  ⟨rfl, execute_query_request_shape _ (Json.str ['t']) _ _ _ _
    rfl rfl (fun h => by simp at h) (Or.inr ⟨[(['a'], Json.num 1)], rfl⟩)⟩

theorem errorLoop_all_obj (es : List Json) (hobj : ∀ e ∈ es, (asObj e).isSome = true) :
    errorLoop es = (es.map (fun e => OutEvent.queryErrorMsg (errMsgField e)), true) := by
  induction es with
  | nil => rfl
  | cons e t IH =>
    have he := hobj e (List.mem_cons_self e t)
    obtain ⟨ekvs, hek⟩ := Option.isSome_iff_exists.mp he
    have ht : ∀ x ∈ t, (asObj x).isSome = true :=
      fun x hx => hobj x (List.mem_cons_of_mem e hx)
    simp [errorLoop, hek, IH ht, errMsgField]

/-- Claim C3: on HTTP 200 with a non-empty `errors` sequence of error
objects, `execute_query` reports each error's `message` but still returns
the full parsed body. -/
theorem execute_query_partial_success (st : Session) (tok : Json) (q : List Char)
    (v : Option Json) (ep : List Char) (net : QueryRequest → TransportResult)
    (resp : HttpResponse) (kvs : List (List Char × Json)) (es : List Json)
    (htok : st.token = some tok) (htr : truthy tok = true)
    (hv : st.verbose = true → sliceable tok = true)
    (hnet : net (mkQueryRequest st q v ep tok) = TransportResult.ok resp)
    (hst : resp.status = 200)
    (hbody : resp.body = some (Json.obj kvs))
    (herr : pyLookup kvs kErrors = some (Json.arr es))
    (hne : es ≠ [])
    (hobj : ∀ e ∈ es, (asObj e).isSome = true) :
    (execute_query st q v ep net).retVal = some (Json.obj kvs) ∧
    (execute_query st q v ep net).raised = false ∧
    OutEvent.queryErrorsHeader ∈ (execute_query st q v ep net).output ∧
    ∀ e ∈ es, OutEvent.queryErrorMsg (errMsgField e) ∈ (execute_query st q v ep net).output := by
  have hvb : (st.verbose && !sliceable tok) = false := by
    cases hvbs : st.verbose
    · simp
    · simp [hv hvbs]
  have hloop := errorLoop_all_obj es hobj
  have htty : truthyOpt (some (Json.arr es)) = true := by
    cases es with
    | nil => exact absurd rfl hne
    | cons a t => simp [truthyOpt, truthy]
  have hE : execute_query st q v ep net =
      { retVal := some (Json.obj kvs), raised := false,
        sent := [mkQueryRequest st q v ep tok],
        output := (if st.verbose = true then [OutEvent.verboseQueryInfo] else [])
          ++ OutEvent.queryErrorsHeader
            :: es.map (fun e => OutEvent.queryErrorMsg (errMsgField e)),
        finalToken := st.token } := by
    simp [execute_query, htok, htr, hvb, hnet, hst, hbody, asObj, herr, htty,
      errorsReport, hloop]
  rw [hE]
  refine ⟨rfl, rfl, ?_, ?_⟩
  · exact List.mem_append_right _ (List.mem_cons_self _ _)
  · intro e he
    exact List.mem_append_right _ (List.mem_cons_of_mem _ (List.mem_map_of_mem _ he))

theorem execute_query_partial_success_witness :
    truthy (Json.str ['t']) = true ∧
    ([Json.obj [(kMessage, Json.str ("deprecated field".data))]] ≠ ([] : List Json)) ∧
    ((execute_query { base_url := "u".data, token := some (Json.str ['t']), verbose := false }
        ("q".data) none ("/graphql".data)
        (fun _ => TransportResult.ok
          { status := 200
            body := some (Json.obj
              [(kErrors, Json.arr [Json.obj [(kMessage, Json.str ("deprecated field".data))]])])
            text := [] })).retVal
      = some (Json.obj
          [(kErrors, Json.arr [Json.obj [(kMessage, Json.str ("deprecated field".data))]])]) ∧
      (execute_query { base_url := "u".data, token := some (Json.str ['t']), verbose := false }
        ("q".data) none ("/graphql".data)
        (fun _ => TransportResult.ok
          { status := 200
            body := some (Json.obj
              [(kErrors, Json.arr [Json.obj [(kMessage, Json.str ("deprecated field".data))]])])
            text := [] })).raised = false ∧
      OutEvent.queryErrorsHeader ∈ (execute_query
        { base_url := "u".data, token := some (Json.str ['t']), verbose := false }
        ("q".data) none ("/graphql".data)
        (fun _ => TransportResult.ok
          { status := 200
            body := some (Json.obj
              [(kErrors, Json.arr [Json.obj [(kMessage, Json.str ("deprecated field".data))]])])
            text := [] })).output ∧
      ∀ e ∈ [Json.obj [(kMessage, Json.str ("deprecated field".data))]],
        OutEvent.queryErrorMsg (errMsgField e) ∈ (execute_query
          { base_url := "u".data, token := some (Json.str ['t']), verbose := false }
          ("q".data) none ("/graphql".data)
          (fun _ => TransportResult.ok
            { status := 200
              body := some (Json.obj
                [(kErrors, Json.arr [Json.obj [(kMessage, Json.str ("deprecated field".data))]])])
              text := [] })).output) :=
  ⟨rfl, by simp,
    execute_query_partial_success _ (Json.str ['t']) _ _ _ _ _ _ _
      rfl rfl (fun h => by simp at h) rfl rfl rfl rfl (by simp)
      (by intro e he; simp at he; subst he; rfl)⟩

/-- Claim C2 as written is refuted: on HTTP 200 with `success == true`
and a `token` key present (bound to the empty string), `login` returns
false and stores nothing, because the source tests Python truthiness of
`result.get('token')`, not presence. -/
theorem login_counterexample :
    c2Resp.status = 200 ∧
    pyLookup c2Body kSuccess = some (Json.bool true) ∧
    (pyLookup c2Body kToken).isSome = true ∧
    (login c2Session ("e".data) ("p".data) (TransportResult.ok c2Resp)).ok = false ∧
    (login c2Session ("e".data) ("p".data) (TransportResult.ok c2Resp)).session.token
      = none :=
  ⟨rfl, rfl, rfl, rfl, rfl⟩

/-- Claim C2 (amended): on HTTP 200 with verbose logging disabled, `login`
returns true and stores `result['token']` exactly when the parsed body is
a dict whose `success` and `token` values are truthy; in every other case
it returns false and leaves the token unchanged.  (The amendment replaces
"success == true and token present" by Python truthiness, which is what
the source tests; the verbose-disabled hypothesis is needed because the
verbose success log can itself raise after storing the token, flipping
the return to false.) -/
theorem login_200 (st : Session) (email password : List Char) (r : HttpResponse)
    (hverb : st.verbose = false) (hst : r.status = 200) :
    (match r.body with
     | some (Json.obj kvs) =>
       (((truthy ((pyLookup kvs kSuccess).getD (Json.bool false))
           && truthyOpt (pyLookup kvs kToken)) = true →
         (login st email password (TransportResult.ok r)).ok = true ∧
         (login st email password (TransportResult.ok r)).session.token
           = pyLookup kvs kToken) ∧
        ((truthy ((pyLookup kvs kSuccess).getD (Json.bool false))
           && truthyOpt (pyLookup kvs kToken)) = false →
         (login st email password (TransportResult.ok r)).ok = false ∧
         (login st email password (TransportResult.ok r)).session.token = st.token))
     | _ =>
       (login st email password (TransportResult.ok r)).ok = false ∧
       (login st email password (TransportResult.ok r)).session.token = st.token) := by
  rcases hbody : r.body with _ | j
  · simp [login, hst, hbody]
  · cases j with
    | obj kvs =>
      constructor
      · intro hc
        simp [login, hst, hbody, asObj, hc, hverb]
      · intro hc
        simp [login, hst, hbody, asObj, hc]
    | null => simp [login, hst, hbody, asObj]
    | bool b => simp [login, hst, hbody, asObj]
    | num n => simp [login, hst, hbody, asObj]
    | str s => simp [login, hst, hbody, asObj]
    | arr xs => simp [login, hst, hbody, asObj]

theorem login_200_witness :
    (login { base_url := "u".data, token := none, verbose := false } ("e".data) ("p".data)
        (TransportResult.ok
          { status := 200
            body := some (Json.obj [(kSuccess, Json.bool true), (kToken, Json.str ['t'])])
            text := [] })).ok = true ∧
    (login { base_url := "u".data, token := none, verbose := false } ("e".data) ("p".data)
        (TransportResult.ok
          { status := 200
            body := some (Json.obj [(kSuccess, Json.bool true), (kToken, Json.str ['t'])])
            text := [] })).session.token = some (Json.str ['t']) := by
  have h := login_200 { base_url := "u".data, token := none, verbose := false }
    ("e".data) ("p".data)
    { status := 200
      body := some (Json.obj [(kSuccess, Json.bool true), (kToken, Json.str ['t'])])
      text := [] } rfl rfl
  obtain ⟨h1, _⟩ := h
  have h2 := h1 rfl
  exact ⟨h2.1, h2.2.trans rfl⟩

/-- Claim C5 as written is refuted: the empty JSON object is a well-formed
body, but `print_result` drops every falsy result, so no JSON text is
emitted at all for `{}` with `format_output=True`. -/
theorem print_result_roundtrip_counterexample :
    ¬ ∃ s, OutEvent.jsonDump s ∈ (print_result (some (Json.obj [])) true).output ∧
      reparse s = some (Json.obj []) := by
  intro ⟨s, hmem, _⟩
  simp [print_result, truthy] at hmem

/-- Claim C5 (amended): for every truthy well-formed JSON body, the JSON
text `print_result` emits with `format_output=True` reparses to a value
structurally equal to the input, independent of the summarization side
output.  (The amendment excludes falsy bodies — in particular the empty
object — which `print_result` silently drops.) -/
theorem print_result_roundtrip (j : Json) (hj : truthy j = true) :
    OutEvent.jsonDump (dumps j) ∈ (print_result (some j) true).output ∧
    reparse (dumps j) = some j := by
  refine ⟨?_, reparse_dumps j⟩
  cases hobj : asObj j with
  | none => simp [print_result, hj, hobj]
  | some kvs =>
    cases hd : pyLookup kvs kData with
    | none => simp [print_result, hj, hobj, hd]
    | some dta =>
      by_cases htd : truthy dta
      · cases hdo : asObj dta with
        | none => simp [print_result, hj, hobj, hd, htd, hdo]
        | some dkvs =>
          cases hm : (meEvents dkvs).2 <;>
            simp [print_result, hj, hobj, hd, htd, hdo, hm]
      · simp [print_result, hj, hobj, hd, htd]

theorem print_result_roundtrip_witness :
    truthy c5Witness = true ∧
    (OutEvent.jsonDump (dumps c5Witness) ∈ (print_result (some c5Witness) true).output ∧
      reparse (dumps c5Witness) = some c5Witness) :=
  ⟨rfl, print_result_roundtrip c5Witness rfl⟩

/-- Claim C10: `print_result` prints nothing for every falsy result, not
only the `None` sentinel: `if not result: return` drops the empty dict,
empty list, 0, empty string and false as well. -/
theorem print_result_falsy (j : Json) (fo : Bool) (h : truthy j = false) :
    print_result (some j) fo = { output := [], ok := true } ∧
    print_result none fo = { output := [], ok := true } := by
  constructor
  · simp [print_result, h]
  · rfl

theorem print_result_falsy_witness :
    truthy (Json.obj []) = false ∧
    (print_result (some (Json.obj [])) true = { output := [], ok := true } ∧
      print_result none true = { output := [], ok := true }) :=
  ⟨rfl, print_result_falsy (Json.obj []) true rfl⟩

theorem productLines_mem : ∀ (its : List Json),
    (∀ e ∈ its, (asObj e).isSome = true) → ∀ i0,
    (productLines i0 its).2 = true ∧
    ∀ i, (h : i < its.length) →
      OutEvent.productLine (i0 + i)
        ((fieldOf (its.get ⟨i, h⟩) kTitle).getD (Json.str defTitle))
        ((fieldOf (its.get ⟨i, h⟩) kVendor).getD (Json.str defVendor))
        ((fieldOf (its.get ⟨i, h⟩) kMinPrice).getD (Json.num 0))
        ((fieldOf (its.get ⟨i, h⟩) kMaxPrice).getD (Json.num 0))
        ∈ (productLines i0 its).1 := by
  intro its
  induction its with
  | nil =>
    intro _ i0
    exact ⟨rfl, fun i h => absurd h (by simp)⟩
  | cons e t IH =>
    intro hobj i0
    have he := hobj e (List.mem_cons_self e t)
    obtain ⟨ekvs, hek⟩ := Option.isSome_iff_exists.mp he
    have ht : ∀ x ∈ t, (asObj x).isSome = true :=
      fun x hx => hobj x (List.mem_cons_of_mem e hx)
    obtain ⟨IHok, IHmem⟩ := IH ht (i0 + 1)
    constructor
    · simp [productLines, hek, IHok]
    · intro i h
      cases i with
      | zero => simp [productLines, hek, fieldOf]
      | succ i =>
        have h' : i < t.length := by simpa using h
        have hmem := IHmem i h'
        have hidx : i0 + 1 + i = i0 + (i + 1) := by omega
        rw [hidx] at hmem
        simp only [productLines, hek, List.get]
        exact List.mem_cons_of_mem _ hmem

/-- Claim C6 as written is refuted: `data.products` can be present while
printing nothing — the source tests Python truthiness, so a present but
empty `products` object produces no count line at all. -/
theorem print_result_products_counterexample :
    pyLookup c6Dkvs kProducts = some (Json.obj []) ∧
    ¬ ∃ cnt, OutEvent.productsCount cnt ∈ (print_result (some c6Body) true).output := by
  refine ⟨rfl, ?_⟩
  intro ⟨cnt, hmem⟩
  have hout : (print_result (some c6Body) true).output
      = [OutEvent.resultHeader, OutEvent.jsonDump (dumps c6Body)] := rfl
  rw [hout] at hmem
  simp at hmem

/-- Claim C6 (amended): whenever `data.products` is present and truthy (a
non-empty object) and the `me` branch completes, `print_result` prints
the total count from `products.totalCount` with default 0, and if
`products.items` is an ordered sequence of objects, one 1-indexed line
per item carrying title, vendor and min/max price, with the source's
placeholder defaults for absent fields.  (The amendment replaces
"present" by "present and truthy": a present-but-empty products object
prints nothing.) -/
theorem print_result_products (rkvs dkvs pkvs : List (List Char × Json)) (fo : Bool)
    (hdata : pyLookup rkvs kData = some (Json.obj dkvs))
    (hme : (meEvents dkvs).2 = true)
    (hprod : pyLookup dkvs kProducts = some (Json.obj pkvs))
    (hpne : pkvs ≠ []) :
    OutEvent.productsCount ((pyLookup pkvs kTotalCount).getD (Json.num 0))
      ∈ (print_result (some (Json.obj rkvs)) fo).output ∧
    ∀ its, pyLookup pkvs kItems = some (Json.arr its) →
      (∀ e ∈ its, (asObj e).isSome = true) →
      ∀ i, (h : i < its.length) →
        OutEvent.productLine (i + 1)
          ((fieldOf (its.get ⟨i, h⟩) kTitle).getD (Json.str defTitle))
          ((fieldOf (its.get ⟨i, h⟩) kVendor).getD (Json.str defVendor))
          ((fieldOf (its.get ⟨i, h⟩) kMinPrice).getD (Json.num 0))
          ((fieldOf (its.get ⟨i, h⟩) kMaxPrice).getD (Json.num 0))
          ∈ (print_result (some (Json.obj rkvs)) fo).output := by
  have hrt : truthy (Json.obj rkvs) = true := by
    cases rkvs with
    | nil => simp [pyLookup] at hdata
    | cons a t => simp [truthy]
  have hdt : truthy (Json.obj dkvs) = true := by
    cases dkvs with
    | nil => simp [pyLookup] at hprod
    | cons a t => simp [truthy]
  have hpt : truthy (Json.obj pkvs) = true := by
    cases pkvs with
    | nil => exact absurd rfl hpne
    | cons a t => simp [truthy]
  have hout : (print_result (some (Json.obj rkvs)) fo).output
      = (if fo then [OutEvent.resultHeader, OutEvent.jsonDump (dumps (Json.obj rkvs))]
         else [OutEvent.rawDump (Json.obj rkvs)])
        ++ ((meEvents dkvs).1 ++ (productsEvents dkvs).1) := by
    simp [print_result, hrt, asObj, hdata, hdt, hme]
  constructor
  · rw [hout]
    refine List.mem_append_right _ (List.mem_append_right _ ?_)
    simp only [productsEvents, hprod, truthyOpt, hpt, asObj]
    cases hio : pyLookup pkvs kItems with
    | none => simp [hio, truthyOpt]
    | some itv =>
      by_cases hti : truthy itv
      · cases itv <;> simp [hio, truthyOpt, hti]
      · simp [hio, truthyOpt, hti]
  · intro its hits hobj i hi
    rw [hout]
    refine List.mem_append_right _ (List.mem_append_right _ ?_)
    cases its with
    | nil => simp at hi
    | cons a t =>
      have hti : truthy (Json.arr (a :: t)) = true := by simp [truthy]
      obtain ⟨_, hmem⟩ := productLines_mem (a :: t) hobj 1
      have hm := hmem i hi
      have hidx : 1 + i = i + 1 := by omega
      rw [hidx] at hm
      simp only [productsEvents, hprod, truthyOpt, hpt, asObj, hits, hti]
      simp only [truthy] at hti
      simp [hti]
      simpa using hm

theorem print_result_products_witness :
    pyLookup c6WitnessDkvs kProducts = some (Json.obj c6WitnessPkvs) ∧
    OutEvent.productsCount ((pyLookup c6WitnessPkvs kTotalCount).getD (Json.num 0))
      ∈ (print_result (some (Json.obj c6WitnessRkvs)) true).output ∧
    OutEvent.productLine 1 (Json.str ['A']) (Json.str ['V', '1']) (Json.num 1) (Json.num 2)
      ∈ (print_result (some (Json.obj c6WitnessRkvs)) true).output ∧
    OutEvent.productLine 2 (Json.str defTitle) (Json.str defVendor) (Json.num 0) (Json.num 0)
      ∈ (print_result (some (Json.obj c6WitnessRkvs)) true).output := by
  have h := print_result_products c6WitnessRkvs c6WitnessDkvs c6WitnessPkvs true
    rfl rfl rfl (by simp [c6WitnessPkvs])
  refine ⟨rfl, h.1, ?_, ?_⟩
  · exact h.2 c6Items rfl (by decide) 0 (by simp [c6Items])
  · exact h.2 c6Items rfl (by decide) 1 (by simp [c6Items])

/-- Claim C9 as written is refuted: with a readable setup and a
successful login, a 200 response whose `data` is not an object makes
`print_result` raise an uncaught AttributeError, so the process exits
with code 1 although neither login nor `--query-file` nor `--variables`
failed. -/
theorem main_exit_counterexample :
    (main' c9Args c9ReadFile c9LoginResp c9QueryNet).exitCode = 1 ∧
    (main' c9Args c9ReadFile c9LoginResp c9QueryNet).crashed = true ∧
    fileFails c9Args c9ReadFile = false ∧
    varsFail c9Args = false ∧
    loginFails c9Args c9LoginResp = false :=
  ⟨rfl, rfl, rfl, rfl, rfl⟩

/-- Claim C9 (amended): the entry point exits 1 exactly when `--query-file`
is unreadable, `--variables` is invalid JSON, login fails, or the run dies
in an uncaught exception (a malformed-shape response body in
`print_result`, or the verbose token slice); the first two happen before
any network call; otherwise it exits 0, including when `execute_query`
returns the absent-result sentinel. -/
theorem main_exit_codes (args : CliArgs) (readFile : List Char → FileResult)
    (loginResp : TransportResult) (queryNet : QueryRequest → TransportResult) :
    ((main' args readFile loginResp queryNet).exitCode = 0 ∨
      (main' args readFile loginResp queryNet).exitCode = 1) ∧
    ((main' args readFile loginResp queryNet).exitCode = 1 ↔
      (fileFails args readFile = true ∨ varsFail args = true ∨
        loginFails args loginResp = true ∨
        (main' args readFile loginResp queryNet).crashed = true)) ∧
    (fileFails args readFile = true ∨ varsFail args = true →
      (main' args readFile loginResp queryNet).loginSent = false ∧
      (main' args readFile loginResp queryNet).querySent = false) := by
  rcases hqf : args.queryFile with _ | f
  · rcases hva : args.variablesArg with _ | vtext
    · simp only [main', hqf, hva]
      repeat' split <;> try simp_all [fileFails, varsFail, loginFails, hqf, hva]
    · rcases hvp : reparse vtext with _ | vjson
      · simp [main', fileFails, varsFail, loginFails, hqf, hva, hvp]
      · simp only [main', hqf, hva, hvp]
        repeat' split <;> try simp_all [fileFails, varsFail, loginFails, hqf, hva, hvp]
  · rcases hrf : readFile f with s | _
    · rcases hva : args.variablesArg with _ | vtext
      · simp only [main', hqf, hrf, hva]
        repeat' split <;> try simp_all [fileFails, varsFail, loginFails, hqf, hrf, hva]
      · rcases hvp : reparse vtext with _ | vjson
        · simp [main', fileFails, varsFail, loginFails, hqf, hrf, hva, hvp]
        · simp only [main', hqf, hrf, hva, hvp]
          repeat' split <;> try simp_all [fileFails, varsFail, loginFails, hqf, hrf, hva, hvp]
    · simp [main', fileFails, varsFail, loginFails, hqf, hrf]
